import Mathlib

/-!
Verification of the task-dependency and sprint-lifecycle engine of a
project-management backend.  The definitions below are a shallow embedding of
the Python source (models.py, routers/sprints.py, routers/tasks.py): the
SQLAlchemy tables become Lean structures, the database session becomes an
explicit `DB` value holding the three tables the engine touches, queries
become list lookups, and each endpoint body becomes a pure function that
either returns the updated `DB` or a typed error mirroring the HTTPException
raised by the code.  Timestamp columns (create_date, start_date, end_date,
update_date) are omitted: no verified property mentions wall-clock time.
-/

namespace PM

/-- Task statuses, from models.TaskStatus. -/
inductive TaskStatus where
  | NOT_AVAILABLE
  | AVAILABLE
  | WAIT
  | COMPLETE
  | TESTING
  | IN_PROGRESS
  | FEEDBACK
deriving DecidableEq, Repr

/-- Dependency kinds, from models.DependencyType. -/
inductive DependencyType where
  | NONE
  | FS
  | SS
deriving DecidableEq, Repr

/-- A row of the task table (models.Task); only the columns the dependency and
sprint engine reads or writes are kept. -/
structure Task where
  id : Nat
  status : TaskStatus
  dependent_on : Option Nat
  dependency_type : DependencyType
  worker_id : Option Nat
  sprint_id : Option Nat
deriving DecidableEq, Repr

/-- A row of the task_info table (models.TaskInfo), the transition-history
record; the update_date timestamp is omitted. -/
structure TaskInfo where
  task_num : Nat
  task_status : TaskStatus
deriving DecidableEq, Repr

/-- A row of the sprint table (models.Sprint); date columns omitted. -/
structure Sprint where
  id : Nat
  is_active : Bool
  is_completed : Bool
deriving DecidableEq, Repr

/-- The slice of the database the dependency and sprint engine touches. -/
structure DB where
  tasks : List Task
  sprints : List Sprint
  task_infos : List TaskInfo
deriving DecidableEq, Repr

/-- Python truthiness of an optional integer column: `None` and `0` are falsy.
Used wherever the source writes `if task.dependent_on:` or similar. -/
def truthy : Option Nat → Bool
  | none => false
  | some n => n != 0

/-- db.query(Task).filter(Task.id == i).first() -/
def findTask (db : DB) (i : Nat) : Option Task :=
  db.tasks.find? (fun t => t.id == i)

/-- db.query(Sprint).filter(Sprint.id == i).first() -/
def findSprint (db : DB) (i : Nat) : Option Sprint :=
  db.sprints.find? (fun s => s.id == i)

/-- routers/sprints.py check_dependency_status (lines 78-106): true when the
task's dependency allows it to start.  Falls through to `False` when the
dependency kind is neither FS nor SS. -/
def check_dependency_status (db : DB) (task : Task) : Bool :=
  if !truthy task.dependent_on then true
  else
    match findTask db (task.dependent_on.getD 0) with
    | none => false
    | some dependency_task =>
      if task.dependency_type == DependencyType.FS then
        dependency_task.status == TaskStatus.COMPLETE
      else if task.dependency_type == DependencyType.SS then
        dependency_task.status == TaskStatus.IN_PROGRESS ||
        dependency_task.status == TaskStatus.TESTING ||
        dependency_task.status == TaskStatus.FEEDBACK ||
        dependency_task.status == TaskStatus.COMPLETE
      else false

/-- Modelled from the spec: the claim text of C3 and spec section 4.2 read
`IsSatisfied` as true when `dependent_on` is unset, or the prerequisite exists
and meets the kind's threshold, where kind NONE imposes no constraint and is
always satisfied.  This is the spec-side definition, to be compared with
`check_dependency_status` above, which was translated from the source. -/
def specIsSatisfied (db : DB) (task : Task) : Bool :=
  if !truthy task.dependent_on then true
  else
    match findTask db (task.dependent_on.getD 0) with
    | none => false
    | some dependency_task =>
      match task.dependency_type with
      | DependencyType.FS => dependency_task.status == TaskStatus.COMPLETE
      | DependencyType.SS =>
        dependency_task.status == TaskStatus.IN_PROGRESS ||
        dependency_task.status == TaskStatus.TESTING ||
        dependency_task.status == TaskStatus.FEEDBACK ||
        dependency_task.status == TaskStatus.COMPLETE
      | DependencyType.NONE => true

/-- One step of the dependent_on chain as the cycle walk follows it
(routers/tasks.py check_circular_dependency, lines 146-151): the next node is
the current task's dependent_on, provided the current task exists and its
dependent_on is truthy (the walk breaks on a missing task or a falsy link). -/
def chainStep (db : DB) (i : Nat) : Option Nat :=
  match findTask db i with
  | none => none
  | some t =>
    match t.dependent_on with
    | none => none
    | some nxt => if nxt = 0 then none else some nxt

/-- The dependent_on chain from a start node: chainSeq db start k is the node
reached after k steps, or none when the chain ends earlier. -/
def chainSeq (db : DB) (start : Nat) : Nat → Option Nat
  | 0 => some start
  | k + 1 =>
    match chainStep db start with
    | none => none
    | some nxt => chainSeq db nxt k

/-- The loop body of routers/tasks.py check_circular_dependency (lines
135-153), unrolled with explicit fuel; returns none only when the fuel runs
out.  The branch order matches the source: the while-condition truthiness
test, the task_id hit, the visited hit, then the chain step — chainStep folds
the source's query and its break on a missing task or a falsy dependent_on
into one lookup, an undefined step meaning the loop breaks with False. -/
def ccdWalk (db : DB) (task_id : Nat) : Nat → Nat → Finset Nat → Option Bool
  | 0, _, _ => none
  | fuel + 1, current, visited =>
    if current = 0 then some false
    else if current = task_id then some true
    else if current ∈ visited then some true
    else
      match chainStep db current with
      | none => some false
      | some nxt => ccdWalk db task_id fuel nxt (insert current visited)

/-- Fuel that provably suffices for the walk (see ccdWalk_isSome below). -/
def ccdFuel (db : DB) : Nat :=
  db.tasks.length + 2

/-- routers/tasks.py check_circular_dependency (lines 128-153). -/
def check_circular_dependency (db : DB) (task_id dependency_id : Nat) : Bool :=
  (ccdWalk db task_id (ccdFuel db) dependency_id ∅).getD false

/-- The per-dependent update of routers/tasks.py check_dependent_tasks (lines
82-96), run when a task completes: an FS dependent still in WAIT becomes
AVAILABLE and one history record is written; any other dependent row is left
unchanged.  Returns the updated row and the optional new record. -/
def fsDependentUpdate (completed_task_id : Nat) (t : Task) : Task × Option TaskInfo :=
  if t.dependent_on == some completed_task_id &&
      t.dependency_type == DependencyType.FS &&
      t.status == TaskStatus.WAIT then
    ({ t with status := TaskStatus.AVAILABLE },
     some { task_num := t.id, task_status := TaskStatus.AVAILABLE })
  else (t, none)

/-- routers/tasks.py check_dependent_tasks (lines 75-98): the query filters on
dependent_on equal to the completed task; rows not selected by the filter are
exactly the rows fsDependentUpdate leaves unchanged, so the whole pass is a
map over the task table plus the appended records. -/
def check_dependent_tasks (db : DB) (completed_task_id : Nat) : DB :=
  let pairs := db.tasks.map (fsDependentUpdate completed_task_id)
  { db with
    tasks := pairs.map Prod.fst,
    task_infos := db.task_infos ++ pairs.filterMap Prod.snd }

/-- The test `if dep_task.sprint_id:` followed by the sprint query and
`sprint.is_active` in routers/tasks.py delete_task (lines 663-665). -/
def sprintActiveFor (db : DB) (sid : Option Nat) : Bool :=
  if truthy sid then
    match findSprint db (sid.getD 0) with
    | some s => s.is_active
    | none => false
  else false

/-- The per-dependent update of routers/tasks.py delete_task (lines 659-675):
dependent_on is set to None (dependency_type is not touched); when the
dependent sits in an active sprint its status is overwritten to AVAILABLE and
a history record is written. -/
def clearDependent (db : DB) (task_id : Nat) (t : Task) : Task × Option TaskInfo :=
  if t.dependent_on == some task_id then
    if sprintActiveFor db t.sprint_id then
      ({ t with dependent_on := none, status := TaskStatus.AVAILABLE },
       some { task_num := t.id, task_status := TaskStatus.AVAILABLE })
    else ({ t with dependent_on := none }, none)
  else (t, none)

/-- Errors a modelled endpoint can raise; each constructor stands for one
HTTPException site that the modelled slice of the endpoint can reach. -/
inductive ApiError where
  | TaskNotFound
  | SprintNotFound
  | AlreadyActiveOrCompleted
  | NotEnoughTasks
  | UnassignedTasks
  | DependencyValidationFailed
deriving DecidableEq, Repr

/-- routers/tasks.py delete_task (lines 634-699), permission checks elided:
look the task up, clear every dependent row per clearDependent, delete the
task's own history records, and delete the task row itself.  Comments and
replies are not modelled (no claim touches them). -/
def delete_task (db : DB) (task_id : Nat) : Except ApiError DB :=
  match findTask db task_id with
  | none => .error ApiError.TaskNotFound
  | some _ =>
    let pairs := db.tasks.map (clearDependent db task_id)
    let tasks2 := (pairs.map Prod.fst).filter (fun t => t.id != task_id)
    let infos2 := (db.task_infos.filter (fun i => i.task_num != task_id)) ++
      pairs.filterMap Prod.snd
    .ok { db with tasks := tasks2, task_infos := infos2 }

/-- The dependency-validation test of routers/sprints.py launch_sprint (lines
302-317): a task with a truthy dependent_on is an error when the prerequisite
is missing, or is neither in this sprint nor COMPLETE. -/
def dependencyLaunchError (db : DB) (sprint_id : Nat) (t : Task) : Bool :=
  truthy t.dependent_on &&
    (match findTask db (t.dependent_on.getD 0) with
     | none => true
     | some d => !(d.sprint_id == some sprint_id) && !(d.status == TaskStatus.COMPLETE))

/-- The per-task body of launch_sprint's update loop (routers/sprints.py lines
331-348): a task with a truthy dependent_on is re-evaluated to AVAILABLE or
WAIT per check_dependency_status; otherwise TESTING/FEEDBACK tasks are skipped
(continue) and every other task becomes AVAILABLE.  A history record is
written exactly when the resulting status is not TESTING/FEEDBACK, i.e. in
every non-skipped branch. -/
def launchUpdateTask (db : DB) (t : Task) : Task × Option TaskInfo :=
  if truthy t.dependent_on then
    if check_dependency_status db t then
      ({ t with status := TaskStatus.AVAILABLE },
       some { task_num := t.id, task_status := TaskStatus.AVAILABLE })
    else
      ({ t with status := TaskStatus.WAIT },
       some { task_num := t.id, task_status := TaskStatus.WAIT })
  else if t.status == TaskStatus.TESTING || t.status == TaskStatus.FEEDBACK then
    (t, none)
  else
    ({ t with status := TaskStatus.AVAILABLE },
     some { task_num := t.id, task_status := TaskStatus.AVAILABLE })

/-- Replace the row with the given task's id (the in-place mutation of a row
object fetched from the session). -/
def updateTaskIn (l : List Task) (t : Task) : List Task :=
  l.map (fun u => if u.id == t.id then t else u)

/-- One iteration of launch_sprint's update loop applied to the session state:
write the updated row back and append the optional history record. -/
def launchStepDB (db : DB) (u : Task) : DB :=
  { db with
    tasks := updateTaskIn db.tasks (launchUpdateTask db u).1,
    task_infos := db.task_infos ++ ((launchUpdateTask db u).2).toList }

/-- Launch_sprint's update loop over the sprint's tasks, threading the session
state: later iterations of the Python loop observe the status writes of
earlier ones through the shared session, so each step refetches its task by id
from the current state. -/
def launchLoop (db : DB) : List Nat → DB
  | [] => db
  | i :: rest =>
    match findTask db i with
    | none => launchLoop db rest
    | some t => launchLoop (launchStepDB db t) rest

/-- The sprint flag writes at the end of launch_sprint (lines 360-362); the
start_date and end_date writes are omitted with the date columns. -/
def activateSprint (db : DB) (sid : Nat) : DB :=
  { db with
    sprints := db.sprints.map
      (fun s => if s.id == sid then { s with is_active := true } else s) }

/-- routers/sprints.py launch_sprint (lines 254-371), permission checks
elided: the guard chain (sprint exists; not active or completed; at least 5
tasks; all assigned; dependency validation) followed by the update loop and
the sprint activation. -/
def launch_sprint (db : DB) (sprint_id : Nat) : Except ApiError DB :=
  match findSprint db sprint_id with
  | none => .error ApiError.SprintNotFound
  | some sprint =>
    if sprint.is_active || sprint.is_completed then
      .error ApiError.AlreadyActiveOrCompleted
    else
      let tasks := db.tasks.filter (fun t => t.sprint_id == some sprint_id)
      if tasks.length < 5 then .error ApiError.NotEnoughTasks
      else if !(tasks.filter (fun t => t.worker_id == none)).isEmpty then
        .error ApiError.UnassignedTasks
      else if !(tasks.filter (dependencyLaunchError db sprint_id)).isEmpty then
        .error ApiError.DependencyValidationFailed
      else
        .ok (activateSprint (launchLoop db (tasks.map Task.id)) sprint_id)

/-- The number of tasks the launch guard counts in the sprint. -/
def sprintTaskCount (db : DB) (sprint_id : Nat) : Nat :=
  (db.tasks.filter (fun t => t.sprint_id == some sprint_id)).length

/-- Convenience projections of a launch outcome, used to state concrete
evaluations of launch_sprint. -/
def launchOk (db : DB) (sid : Nat) : Bool :=
  match launch_sprint db sid with
  | .ok _ => true
  | .error _ => false

/-- The status of a task after a successful launch (none when the launch
failed or the task does not exist). -/
def statusAfterLaunch (db : DB) (sid tid : Nat) : Option TaskStatus :=
  match launch_sprint db sid with
  | .ok db2 => (findTask db2 tid).map Task.status
  | .error _ => none

/-- The history table after a successful launch (empty on failure). -/
def infosAfterLaunch (db : DB) (sid : Nat) : List TaskInfo :=
  match launch_sprint db sid with
  | .ok db2 => db2.task_infos
  | .error _ => []

/-- The sprint-flag writes of check_sprint_expiration (lines 53-54), applied
to the row with the expired sprint's id. -/
def expireFlagFlip (sid : Nat) (x : Sprint) : Sprint :=
  if x.id == sid then { x with is_active := false, is_completed := true } else x

/-- The per-task write of check_sprint_expiration (lines 57-66): a task of the
expired sprint whose status is not COMPLETE loses its sprint reference. -/
def expireTaskClear (sid : Nat) (t : Task) : Task :=
  if t.sprint_id == some sid && !(t.status == TaskStatus.COMPLETE) then
    { t with sprint_id := none }
  else t

/-- The per-sprint body of routers/sprints.py check_sprint_expiration (lines
51-68): flip the sprint to completed and clear the sprint reference of every
task of the sprint whose status is not COMPLETE; statuses are not written. -/
def expireSprint (db : DB) (s : Sprint) : DB :=
  { db with
    sprints := db.sprints.map (expireFlagFlip s.id),
    tasks := db.tasks.map (expireTaskClear s.id) }

/-- One cycle of the expiration monitor with an explicit failure model: the
try/except of routers/sprints.py check_sprint_expiration (lines 40-72) wraps
the whole for-loop over the expired sprints, so an exception raised while
processing one sprint aborts the rest of the cycle.  `fails s = true` means
processing sprint s raises; the result lists the sprints fully processed in
the cycle and whether the cycle finished without an exception. -/
def processCycle (fails : Nat → Bool) : List Nat → List Nat × Bool
  | [] => ([], true)
  | s :: rest =>
    if fails s then ([], false)
    else
      let r := processCycle fails rest
      (s :: r.1, r.2)

/-- The monitor's outer while-True loop over n cycles: the except clause
catches every per-cycle exception, so every cycle runs regardless of earlier
failures.  failsAt c is the failure model of cycle c and expiredAt c the
expired sprints its query returns; the result is, per cycle, the list of
sprints that cycle processed. -/
def monitorRun (failsAt : Nat → Nat → Bool) (expiredAt : Nat → List Nat)
    (n : Nat) : List (List Nat) :=
  (List.range n).map (fun c => (processCycle (failsAt c) (expiredAt c)).1)

/-- The dependency type a task carries after a delete of another task (used to
state concrete evaluations of delete_task). -/
def depTypeAfterDelete (db : DB) (tid i : Nat) : Option DependencyType :=
  match delete_task db tid with
  | .ok db2 => (findTask db2 i).map Task.dependency_type
  | .error _ => none

/-- A launch-ready task: assigned a worker, no dependency, in sprint 1. -/
def plainTask (i : Nat) : Task :=
  { id := i, status := TaskStatus.NOT_AVAILABLE, dependent_on := none,
    dependency_type := DependencyType.NONE, worker_id := some 10, sprint_id := some 1 }

/-- A draft sprint with id 1. -/
def draftSprint : Sprint :=
  { id := 1, is_active := false, is_completed := false }

/-- A database whose sprint 1 holds exactly five launch-ready tasks. -/
def dbFive : DB :=
  { tasks := [plainTask 1, plainTask 2, plainTask 3, plainTask 4, plainTask 5],
    sprints := [draftSprint], task_infos := [] }

/-- A database whose sprint 1 holds exactly four launch-ready tasks. -/
def dbFour : DB :=
  { tasks := [plainTask 1, plainTask 2, plainTask 3, plainTask 4],
    sprints := [draftSprint], task_infos := [] }

/-- A TESTING task that carries an FS dependency on task 1. -/
def tTestingDep : Task :=
  { id := 6, status := TaskStatus.TESTING, dependent_on := some 1,
    dependency_type := DependencyType.FS, worker_id := some 10, sprint_id := some 1 }

/-- dbFive plus a TESTING task with a dependency, all in sprint 1. -/
def dbTestingDep : DB :=
  { dbFive with tasks := dbFive.tasks ++ [tTestingDep] }

/-- A TESTING task with no dependency. -/
def tTestingNoDep : Task :=
  { id := 6, status := TaskStatus.TESTING, dependent_on := none,
    dependency_type := DependencyType.NONE, worker_id := some 10, sprint_id := some 1 }

/-- dbFive plus a TESTING task without a dependency, all in sprint 1. -/
def dbTestingNoDep : DB :=
  { dbFive with tasks := dbFive.tasks ++ [tTestingNoDep] }

/-- The database state after launching sprint 1 of dbTestingNoDep. -/
def dbTestingNoDepLaunched : DB :=
  match launch_sprint dbTestingNoDep 1 with
  | .ok d => d
  | .error _ => dbTestingNoDep

/-- A task whose dependency kind is NONE while dependent_on is set. -/
def tNoneDep : Task :=
  { id := 2, status := TaskStatus.WAIT, dependent_on := some 1,
    dependency_type := DependencyType.NONE, worker_id := none, sprint_id := none }

/-- A database holding tNoneDep together with its COMPLETE prerequisite. -/
def dbNoneDep : DB :=
  { tasks :=
      [{ id := 1, status := TaskStatus.COMPLETE, dependent_on := none,
         dependency_type := DependencyType.NONE, worker_id := none, sprint_id := none },
       tNoneDep],
    sprints := [], task_infos := [] }

/-- A COMPLETE task in active sprint 7 that depends on task 1 with kind FS. -/
def tCompleteDep : Task :=
  { id := 2, status := TaskStatus.COMPLETE, dependent_on := some 1,
    dependency_type := DependencyType.FS, worker_id := some 10, sprint_id := some 7 }

/-- A database for exercising delete_task: task 1 has two dependents, task 2
(COMPLETE, kind FS, in active sprint 7) and task 3 (WAIT, kind SS, in no
sprint); the history already holds one record for task 1. -/
def dbDelete : DB :=
  { tasks :=
      [{ id := 1, status := TaskStatus.IN_PROGRESS, dependent_on := none,
         dependency_type := DependencyType.NONE, worker_id := some 10, sprint_id := none },
       tCompleteDep,
       { id := 3, status := TaskStatus.WAIT, dependent_on := some 1,
         dependency_type := DependencyType.SS, worker_id := none, sprint_id := none }],
    sprints := [{ id := 7, is_active := true, is_completed := false }],
    task_infos := [{ task_num := 1, task_status := TaskStatus.NOT_AVAILABLE }] }

/-- The database state after deleting task 1 of dbDelete. -/
def dbDeleteAfter : DB :=
  match delete_task dbDelete 1 with
  | .ok d => d
  | .error _ => dbDelete

/-- A dependency chain 1 → 2 → 3 → 2 holding a pre-existing cycle. -/
def dbCycle : DB :=
  { tasks :=
      [{ id := 1, status := TaskStatus.WAIT, dependent_on := some 2,
         dependency_type := DependencyType.FS, worker_id := none, sprint_id := none },
       { id := 2, status := TaskStatus.WAIT, dependent_on := some 3,
         dependency_type := DependencyType.FS, worker_id := none, sprint_id := none },
       { id := 3, status := TaskStatus.WAIT, dependent_on := some 2,
         dependency_type := DependencyType.FS, worker_id := none, sprint_id := none }],
    sprints := [], task_infos := [] }

/-- A WAIT task that depends on task 1 with kind FS. -/
def tWaitFS : Task :=
  { id := 2, status := TaskStatus.WAIT, dependent_on := some 1,
    dependency_type := DependencyType.FS, worker_id := some 10, sprint_id := some 7 }

/-- A database for exercising the completion propagation: task 2 waits on
task 1 with kind FS, task 3 waits on task 1 with kind SS. -/
def dbPropagate : DB :=
  { tasks :=
      [{ id := 1, status := TaskStatus.COMPLETE, dependent_on := none,
         dependency_type := DependencyType.NONE, worker_id := some 10, sprint_id := some 7 },
       tWaitFS,
       { id := 3, status := TaskStatus.WAIT, dependent_on := some 1,
         dependency_type := DependencyType.SS, worker_id := none, sprint_id := none }],
    sprints := [{ id := 7, is_active := true, is_completed := false }],
    task_infos := [] }

/-- An active sprint with id 7. -/
def activeSprint7 : Sprint :=
  { id := 7, is_active := true, is_completed := false }

/-- A TESTING task sitting in sprint 7. -/
def tTestingInSprint : Task :=
  { id := 2, status := TaskStatus.TESTING, dependent_on := none,
    dependency_type := DependencyType.NONE, worker_id := none, sprint_id := some 7 }

/-- A COMPLETE task sitting in sprint 7. -/
def tCompleteInSprint : Task :=
  { id := 1, status := TaskStatus.COMPLETE, dependent_on := none,
    dependency_type := DependencyType.NONE, worker_id := none, sprint_id := some 7 }

/-- A database for exercising sprint expiration: active sprint 7 holds one
COMPLETE and one TESTING task; task 3 belongs to another sprint. -/
def dbExpire : DB :=
  { tasks :=
      [tCompleteInSprint, tTestingInSprint,
       { id := 3, status := TaskStatus.WAIT, dependent_on := none,
         dependency_type := DependencyType.NONE, worker_id := none, sprint_id := some 9 }],
    sprints := [activeSprint7], task_infos := [] }

theorem id_of_findTask {db : DB} {i : Nat} {t : Task} (h : findTask db i = some t) :
    t.id = i := by
  have := List.find?_some h
  exact beq_iff_eq.mp this

theorem mem_of_findTask {db : DB} {i : Nat} {t : Task} (h : findTask db i = some t) :
    t ∈ db.tasks :=
  List.mem_of_find?_eq_some h

theorem find_map_filter_of_nodup {α : Type} (idf : α → Nat) (g : α → α) (q : α → Bool)
    (hg : ∀ x, idf (g x) = idf x) :
    ∀ (l : List α), (l.map idf).Nodup → ∀ t, t ∈ l → q (g t) = true →
      ((l.map g).filter q).find? (fun u => idf u == idf t) = some (g t) := by
  intro l
  induction l with
  | nil => intro _ t ht _; simp at ht
  | cons a l ih =>
    intro hnd t ht hq
    rw [List.map_cons, List.nodup_cons] at hnd
    obtain ⟨hna, hnd2⟩ := hnd
    rw [List.map_cons, List.filter_cons]
    rcases List.mem_cons.mp ht with h | htl
    · subst h
      rw [if_pos hq]
      rw [List.find?_cons_of_pos]
      rw [hg]
      exact beq_self_eq_true (idf t)
    · have hne : (idf (g a) == idf t) = false := by
        rw [hg]
        refine beq_eq_false_iff_ne.mpr ?_
        intro he
        exact hna (he ▸ List.mem_map_of_mem idf htl)
      by_cases hqa : q (g a) = true
      · rw [if_pos hqa, List.find?_cons_of_neg _ (by simp [hne])]
        exact ih hnd2 t htl hq
      · rw [if_neg hqa]
        exact ih hnd2 t htl hq

theorem find_map_of_nodup {α : Type} (idf : α → Nat) (g : α → α)
    (hg : ∀ x, idf (g x) = idf x) (l : List α) (hnd : (l.map idf).Nodup)
    (t : α) (ht : t ∈ l) :
    (l.map g).find? (fun u => idf u == idf t) = some (g t) := by
  have h := find_map_filter_of_nodup idf g (fun _ => true) hg l hnd t ht rfl
  rwa [List.filter_true] at h

theorem filterMap_num_filter_eq_nil {α : Type} (idf : α → Nat) (g : α → Option TaskInfo)
    (hg : ∀ x i, g x = some i → i.task_num = idf x) (n : Nat) :
    ∀ (l : List α), (∀ x ∈ l, idf x ≠ n) →
      (l.filterMap g).filter (fun i => i.task_num == n) = [] := by
  intro l
  induction l with
  | nil => intro _; rfl
  | cons a l ih =>
    intro h
    rw [List.filterMap_cons]
    cases hga : g a with
    | none => exact ih (fun x hx => h x (List.mem_cons_of_mem a hx))
    | some i =>
      rw [List.filter_cons]
      have hf : (i.task_num == n) = false := by
        rw [hg a i hga]
        exact beq_eq_false_iff_ne.mpr (h a (List.mem_cons_self a l))
      rw [if_neg (by simp [hf])]
      exact ih (fun x hx => h x (List.mem_cons_of_mem a hx))

theorem filterMap_num_filter_of_nodup {α : Type} (idf : α → Nat) (g : α → Option TaskInfo)
    (hg : ∀ x i, g x = some i → i.task_num = idf x) :
    ∀ (l : List α), (l.map idf).Nodup → ∀ t, t ∈ l →
      (l.filterMap g).filter (fun i => i.task_num == idf t) = (g t).toList := by
  intro l
  induction l with
  | nil => intro _ t ht; simp at ht
  | cons a l ih =>
    intro hnd t ht
    rw [List.map_cons, List.nodup_cons] at hnd
    obtain ⟨hna, hnd2⟩ := hnd
    rw [List.filterMap_cons]
    rcases List.mem_cons.mp ht with h | htl
    · subst h
      have hrest : (l.filterMap g).filter (fun i => i.task_num == idf t) = [] := by
        refine filterMap_num_filter_eq_nil idf g hg (idf t) l (fun x hx hxe => ?_)
        exact hna (hxe ▸ List.mem_map_of_mem idf hx)
      cases hgt : g t with
      | none => simpa [hgt] using hrest
      | some i =>
        rw [List.filter_cons]
        have hp : (i.task_num == idf t) = true := by
          rw [hg t i hgt]
          exact beq_self_eq_true (idf t)
        rw [if_pos (by simp [hp])]
        rw [hrest]
        rfl
    · cases hga : g a with
      | none => exact ih hnd2 t htl
      | some i =>
        rw [List.filter_cons]
        have hf : (i.task_num == idf t) = false := by
          rw [hg a i hga]
          refine beq_eq_false_iff_ne.mpr ?_
          intro he
          exact hna (he ▸ List.mem_map_of_mem idf htl)
        rw [if_neg (by simp [hf])]
        exact ih hnd2 t htl

theorem launch_sprint_too_few (db : DB) (sid : Nat) (s : Sprint)
    (hfs : findSprint db sid = some s) (hact : s.is_active = false)
    (hcomp : s.is_completed = false) (hlen : sprintTaskCount db sid < 5) :
    launch_sprint db sid = .error ApiError.NotEnoughTasks := by
  unfold launch_sprint
  rw [hfs]
  unfold sprintTaskCount at hlen
  simp [hact, hcomp, hlen]

/-- C1 (corrected): the source guard is `len(tasks) < 5`, so the
minimum-task-count check is an inclusive lower bound at 5: a sprint whose task
count is below 5 fails with the insufficient-task-count error, and a sprint
with exactly 5 valid tasks (all assigned a worker, no dependency problems)
launches successfully. -/
theorem C1_min_task_bound :
    (∀ (db : DB) (sid : Nat) (s : Sprint),
        findSprint db sid = some s → s.is_active = false → s.is_completed = false →
        sprintTaskCount db sid < 5 →
        launch_sprint db sid = .error ApiError.NotEnoughTasks) ∧
      sprintTaskCount dbFour 1 = 4 ∧ sprintTaskCount dbFive 1 = 5 ∧
      launchOk dbFive 1 = true := by
  refine ⟨launch_sprint_too_few, by decide, by decide, by decide⟩

/-- C1 witness: the general bound of C1_min_task_bound applied to the concrete
four-task database. -/
theorem C1_min_task_bound_witness :
    launch_sprint dbFour 1 = .error ApiError.NotEnoughTasks :=
  C1_min_task_bound.1 dbFour 1 draftSprint (by decide) rfl rfl (by decide)

/-- C1 counterexample: the claim says a launch with exactly 5 tasks fails the
precondition, but on the concrete five-task database the launch succeeds. -/
theorem C1_counterexample :
    sprintTaskCount dbFive 1 = 5 ∧ launchOk dbFive 1 = true := by decide

/-- C3 counterexample: a task whose dependency kind is NONE while dependent_on
is set and the prerequisite exists; the claim's reading (NONE is always
satisfied) says true, but check_dependency_status returns false. -/
theorem C3_counterexample :
    tNoneDep ∈ dbNoneDep.tasks ∧
      (findTask dbNoneDep 1).isSome = true ∧
      tNoneDep.dependent_on = some 1 ∧
      tNoneDep.dependency_type = DependencyType.NONE ∧
      check_dependency_status dbNoneDep tNoneDep = false ∧
      specIsSatisfied dbNoneDep tNoneDep = true := by decide

/-- C3 (amended): check_dependency_status is true exactly when dependent_on is
falsy, or the prerequisite exists and its status meets the kind's threshold
for kind FS or SS; a set dependency of any other kind — including NONE — is
unmet (false), and a missing prerequisite yields false rather than an error. -/
theorem C3_dependency_status_characterization (db : DB) (t : Task) :
    check_dependency_status db t = true ↔
      (truthy t.dependent_on = false ∨
        ∃ d, findTask db (t.dependent_on.getD 0) = some d ∧
          ((t.dependency_type = DependencyType.FS ∧ d.status = TaskStatus.COMPLETE) ∨
           (t.dependency_type = DependencyType.SS ∧
             (d.status = TaskStatus.IN_PROGRESS ∨ d.status = TaskStatus.TESTING ∨
              d.status = TaskStatus.FEEDBACK ∨ d.status = TaskStatus.COMPLETE)))) := by
  unfold check_dependency_status
  cases htr : truthy t.dependent_on with
  | false => simp
  | true =>
    simp only [Bool.not_true, Bool.false_eq_true, if_false, htr]
    cases hf : findTask db (t.dependent_on.getD 0) with
    | none => simp
    | some d => cases hdt : t.dependency_type <;> cases hds : d.status <;> simp [hds, or_assoc]

/-- C9 counterexample: with the failure model where only sprint 1 raises, the
cycle over expired sprints [1, 2] processes nothing at all — sprint 2 does not
fail yet is skipped, because the except clause wraps the whole for-loop. -/
theorem C9_counterexample :
    ((fun s => s == 1) 2 = false) ∧
      (processCycle (fun s => s == 1) [1, 2]).1 = [] ∧
      ¬2 ∈ (processCycle (fun s => s == 1) [1, 2]).1 := by decide

/-- C9 (amended): a failure while processing one expired sprint does not halt
the monitor loop — every cycle still runs — but it does abort the remainder of
the current cycle: exactly the expired sprints before the first failing one
are processed, and the sprints after it wait for a later cycle. -/
theorem C9_cycle_failure_semantics :
    (∀ (fails : Nat → Bool) (l : List Nat),
        (processCycle fails l).1 = l.takeWhile (fun s => !fails s)) ∧
      ∀ (failsAt : Nat → Nat → Bool) (expiredAt : Nat → List Nat) (n : Nat),
        (monitorRun failsAt expiredAt n).length = n := by
  constructor
  · intro fails l
    induction l with
    | nil => rfl
    | cons s rest ih =>
      rw [List.takeWhile_cons]
      cases h : fails s with
      | true => simp [processCycle, h]
      | false => simp [processCycle, h, ih]
  · intro f e n
    simp [monitorRun]

theorem fsDependentUpdate_fst_id (cid : Nat) (t : Task) :
    ((fsDependentUpdate cid t).1).id = t.id := by
  unfold fsDependentUpdate
  split <;> rfl

theorem fsDependentUpdate_snd_num (cid : Nat) (t : Task) (i : TaskInfo)
    (h : (fsDependentUpdate cid t).2 = some i) : i.task_num = t.id := by
  unfold fsDependentUpdate at h
  split at h
  · cases h
    rfl
  · cases h

/-- C7: when a task completes, exactly the FS dependents of it that are in
WAIT move to AVAILABLE with one new history record each; every other row —
dependents of other kinds, FS dependents in any other status — is unchanged
and gains no record. -/
theorem C7_fs_completion_propagation (db : DB) (cid : Nat) (t : Task)
    (hnd : (db.tasks.map Task.id).Nodup) (ht : t ∈ db.tasks) :
    (t.dependent_on = some cid ∧ t.dependency_type = DependencyType.FS ∧
        t.status = TaskStatus.WAIT →
      findTask (check_dependent_tasks db cid) t.id =
          some { t with status := TaskStatus.AVAILABLE } ∧
        (check_dependent_tasks db cid).task_infos.filter (fun i => i.task_num == t.id) =
          db.task_infos.filter (fun i => i.task_num == t.id) ++
            [{ task_num := t.id, task_status := TaskStatus.AVAILABLE }]) ∧
    (¬(t.dependent_on = some cid ∧ t.dependency_type = DependencyType.FS ∧
        t.status = TaskStatus.WAIT) →
      findTask (check_dependent_tasks db cid) t.id = some t ∧
        (check_dependent_tasks db cid).task_infos.filter (fun i => i.task_num == t.id) =
          db.task_infos.filter (fun i => i.task_num == t.id)) := by
  have hfind : findTask (check_dependent_tasks db cid) t.id =
      some (fsDependentUpdate cid t).1 := by
    show ((db.tasks.map (fsDependentUpdate cid)).map Prod.fst).find?
        (fun u => u.id == t.id) = _
    rw [List.map_map]
    exact find_map_of_nodup Task.id (Prod.fst ∘ fsDependentUpdate cid)
      (fun x => fsDependentUpdate_fst_id cid x) db.tasks hnd t ht
  have hinfos : (check_dependent_tasks db cid).task_infos.filter
        (fun i => i.task_num == t.id) =
      db.task_infos.filter (fun i => i.task_num == t.id) ++
        ((fsDependentUpdate cid t).2).toList := by
    show (db.task_infos ++ (db.tasks.map (fsDependentUpdate cid)).filterMap Prod.snd).filter
        (fun i => i.task_num == t.id) = _
    rw [List.filter_append, List.filterMap_map]
    congr 1
    exact filterMap_num_filter_of_nodup Task.id (Prod.snd ∘ fsDependentUpdate cid)
      (fun x i h => fsDependentUpdate_snd_num cid x i h) db.tasks hnd t ht
  constructor
  · intro hcond
    obtain ⟨h1, h2, h3⟩ := hcond
    have hupd : fsDependentUpdate cid t =
        ({ t with status := TaskStatus.AVAILABLE },
         some { task_num := t.id, task_status := TaskStatus.AVAILABLE }) := by
      unfold fsDependentUpdate
      rw [if_pos]
      simp [h1, h2, h3]
    rw [hfind, hinfos, hupd]
    exact ⟨rfl, rfl⟩
  · intro hcond
    have hupd : fsDependentUpdate cid t = (t, none) := by
      unfold fsDependentUpdate
      rw [if_neg]
      intro hb
      simp only [Bool.and_eq_true, beq_iff_eq] at hb
      exact hcond ⟨hb.1.1, hb.1.2, hb.2⟩
    rw [hfind, hinfos, hupd]
    exact ⟨rfl, by simp⟩

/-- C7 witness: in the concrete propagation database, completing task 1 moves
its WAIT FS dependent (task 2) to AVAILABLE with exactly one new record. -/
theorem C7_fs_completion_propagation_witness :
    findTask (check_dependent_tasks dbPropagate 1) tWaitFS.id =
        some { tWaitFS with status := TaskStatus.AVAILABLE } ∧
      (check_dependent_tasks dbPropagate 1).task_infos.filter
          (fun i => i.task_num == tWaitFS.id) =
        dbPropagate.task_infos.filter (fun i => i.task_num == tWaitFS.id) ++
          [{ task_num := tWaitFS.id, task_status := TaskStatus.AVAILABLE }] :=
  (C7_fs_completion_propagation dbPropagate 1 tWaitFS (by decide) (by decide)).1
    ⟨rfl, rfl, rfl⟩

/-- C8: expiring an active sprint flips it to inactive and completed, clears
the sprint reference of every task of the sprint not in COMPLETE while leaving
that task's other fields (in particular its status) as they were, and keeps
the sprint reference of COMPLETE tasks. -/
theorem C8_sprint_expiration (db : DB) (s : Sprint)
    (hns : (db.sprints.map Sprint.id).Nodup)
    (hnt : (db.tasks.map Task.id).Nodup)
    (hs : s ∈ db.sprints) :
    findSprint (expireSprint db s) s.id =
        some { s with is_active := false, is_completed := true } ∧
      (∀ t, t ∈ db.tasks → t.sprint_id = some s.id → t.status ≠ TaskStatus.COMPLETE →
        findTask (expireSprint db s) t.id = some { t with sprint_id := none }) ∧
      (∀ t, t ∈ db.tasks → t.sprint_id = some s.id → t.status = TaskStatus.COMPLETE →
        findTask (expireSprint db s) t.id = some t) := by
  refine ⟨?_, ?_, ?_⟩
  · have h := find_map_of_nodup Sprint.id (expireFlagFlip s.id)
      (fun x => by unfold expireFlagFlip; split <;> rfl) db.sprints hns s hs
    rw [show findSprint (expireSprint db s) s.id =
      (db.sprints.map (expireFlagFlip s.id)).find? (fun u => u.id == s.id) from rfl, h]
    simp [expireFlagFlip]
  · intro t htm hsp hne
    have h := find_map_of_nodup Task.id (expireTaskClear s.id)
      (fun u => by unfold expireTaskClear; split <;> rfl) db.tasks hnt t htm
    rw [show findTask (expireSprint db s) t.id =
      (db.tasks.map (expireTaskClear s.id)).find? (fun u => u.id == t.id) from rfl, h]
    have hb : (t.status == TaskStatus.COMPLETE) = false := beq_eq_false_iff_ne.mpr hne
    simp [expireTaskClear, hsp, hb]
  · intro t htm hsp hco
    have h := find_map_of_nodup Task.id (expireTaskClear s.id)
      (fun u => by unfold expireTaskClear; split <;> rfl) db.tasks hnt t htm
    rw [show findTask (expireSprint db s) t.id =
      (db.tasks.map (expireTaskClear s.id)).find? (fun u => u.id == t.id) from rfl, h]
    simp [expireTaskClear, hco]

/-- C8 witness: expiring the concrete active sprint 7 clears the sprint
reference of its TESTING task, keeps it on its COMPLETE task, and ends the
sprint inactive and completed. -/
theorem C8_sprint_expiration_witness :
    findSprint (expireSprint dbExpire activeSprint7) 7 =
        some { activeSprint7 with is_active := false, is_completed := true } ∧
      findTask (expireSprint dbExpire activeSprint7) 2 =
        some { tTestingInSprint with sprint_id := none } ∧
      findTask (expireSprint dbExpire activeSprint7) 1 = some tCompleteInSprint := by
  obtain ⟨h1, h2, h3⟩ :=
    C8_sprint_expiration dbExpire activeSprint7 (by decide) (by decide) (by decide)
  exact ⟨h1, h2 tTestingInSprint (by decide) rfl (by decide),
    h3 tCompleteInSprint (by decide) rfl rfl⟩

theorem clearDependent_fst_id (db : DB) (tid : Nat) (t : Task) :
    ((clearDependent db tid t).1).id = t.id := by
  unfold clearDependent
  split
  · split <;> rfl
  · rfl

theorem clearDependent_snd_num (db : DB) (tid : Nat) (t : Task) (i : TaskInfo)
    (h : (clearDependent db tid t).2 = some i) : i.task_num = t.id := by
  unfold clearDependent at h
  split at h
  · split at h
    · cases h
      rfl
    · cases h
  · cases h

theorem delete_task_dependent_view (db : DB) (tid : Nat) (db2 : DB) (t : Task)
    (hnd : (db.tasks.map Task.id).Nodup)
    (hok : delete_task db tid = .ok db2)
    (ht : t ∈ db.tasks) (hne : t.id ≠ tid) :
    findTask db2 t.id = some (clearDependent db tid t).1 ∧
      db2.task_infos.filter (fun i => i.task_num == t.id) =
        db.task_infos.filter (fun i => i.task_num == t.id) ++
          ((clearDependent db tid t).2).toList := by
  unfold delete_task at hok
  cases hft : findTask db tid with
  | none => rw [hft] at hok; cases hok
  | some v =>
    rw [hft] at hok
    injection hok with hdb2
    subst hdb2
    constructor
    · show (((db.tasks.map (clearDependent db tid)).map Prod.fst).filter
          (fun u => u.id != tid)).find? (fun u => u.id == t.id) = _
      rw [List.map_map]
      refine find_map_filter_of_nodup Task.id (Prod.fst ∘ clearDependent db tid)
        (fun u => u.id != tid) (fun x => clearDependent_fst_id db tid x)
        db.tasks hnd t ht ?_
      show ((clearDependent db tid t).1.id != tid) = true
      rw [clearDependent_fst_id]
      exact bne_iff_ne.mpr hne
    · show ((db.task_infos.filter (fun i => i.task_num != tid)) ++
          (db.tasks.map (clearDependent db tid)).filterMap Prod.snd).filter
            (fun i => i.task_num == t.id) = _
      rw [List.filter_append, List.filter_filter, List.filterMap_map]
      congr 1
      · refine List.filter_congr (fun x _ => ?_)
        cases hx : x.task_num == t.id with
        | false => simp
        | true =>
          have : x.task_num ≠ tid := by
            rw [beq_iff_eq.mp hx]
            exact hne
          simp [bne_iff_ne.mpr this]
      · exact filterMap_num_filter_of_nodup Task.id (Prod.snd ∘ clearDependent db tid)
          (fun x i h => clearDependent_snd_num db tid x i h) db.tasks hnd t ht

/-- C4 (corrected): deleting a task clears dependent_on on every task that
named it, but leaves dependency_type untouched (it is not reset to NONE); a
dependent whose sprint is active is additionally set to AVAILABLE with one new
history record, while other dependents keep their status and gain no record. -/
theorem C4_delete_clears_dependents (db : DB) (tid : Nat) (db2 : DB) (t : Task)
    (hnd : (db.tasks.map Task.id).Nodup)
    (hok : delete_task db tid = .ok db2)
    (ht : t ∈ db.tasks) (hdep : t.dependent_on = some tid) (hne : t.id ≠ tid) :
    (sprintActiveFor db t.sprint_id = true →
      findTask db2 t.id =
          some { t with dependent_on := none, status := TaskStatus.AVAILABLE } ∧
        db2.task_infos.filter (fun i => i.task_num == t.id) =
          db.task_infos.filter (fun i => i.task_num == t.id) ++
            [{ task_num := t.id, task_status := TaskStatus.AVAILABLE }]) ∧
    (sprintActiveFor db t.sprint_id = false →
      findTask db2 t.id = some { t with dependent_on := none } ∧
        db2.task_infos.filter (fun i => i.task_num == t.id) =
          db.task_infos.filter (fun i => i.task_num == t.id)) := by
  obtain ⟨h1, h2⟩ := delete_task_dependent_view db tid db2 t hnd hok ht hne
  constructor
  · intro hact
    have hcd : clearDependent db tid t =
        ({ t with dependent_on := none, status := TaskStatus.AVAILABLE },
         some { task_num := t.id, task_status := TaskStatus.AVAILABLE }) := by
      unfold clearDependent
      rw [if_pos (by simp [hdep]), if_pos hact]
    rw [hcd] at h1 h2
    exact ⟨h1, h2⟩
  · intro hact
    have hcd : clearDependent db tid t = ({ t with dependent_on := none }, none) := by
      unfold clearDependent
      rw [if_pos (by simp [hdep]), if_neg (by simp [hact])]
    rw [hcd] at h1 h2
    exact ⟨h1, by simpa using h2⟩

/-- C4 witness: deleting task 1 of the concrete database clears the dependency
of its active-sprint dependent and records the forced AVAILABLE transition. -/
theorem C4_delete_clears_dependents_witness :
    findTask dbDeleteAfter tCompleteDep.id =
        some { tCompleteDep with dependent_on := none, status := TaskStatus.AVAILABLE } ∧
      dbDeleteAfter.task_infos.filter (fun i => i.task_num == tCompleteDep.id) =
        dbDelete.task_infos.filter (fun i => i.task_num == tCompleteDep.id) ++
          [{ task_num := tCompleteDep.id, task_status := TaskStatus.AVAILABLE }] :=
  (C4_delete_clears_dependents dbDelete 1 dbDeleteAfter tCompleteDep (by decide)
    rfl (by decide) rfl (by decide)).1 rfl

/-- C4 counterexample: the claim says the dependent's dependency_type is reset
to NONE; on the concrete database, task 2 names deleted task 1 with kind FS
and still carries kind FS after the delete. -/
theorem C4_counterexample :
    (findTask dbDelete 2).map Task.dependent_on = some (some 1) ∧
      (findTask dbDelete 2).map Task.dependency_type = some DependencyType.FS ∧
      depTypeAfterDelete dbDelete 1 2 = some DependencyType.FS := by decide

/-- C10: when a task is deleted, every dependent of it whose sprint is active
is set to AVAILABLE unconditionally — whatever its current status, including
the terminal COMPLETE — and one history record of the overwrite is written. -/
theorem C10_delete_overwrites_status (db : DB) (tid : Nat) (db2 : DB) (t : Task)
    (hnd : (db.tasks.map Task.id).Nodup)
    (hok : delete_task db tid = .ok db2)
    (ht : t ∈ db.tasks) (hdep : t.dependent_on = some tid) (hne : t.id ≠ tid)
    (hact : sprintActiveFor db t.sprint_id = true) :
    findTask db2 t.id =
        some { t with dependent_on := none, status := TaskStatus.AVAILABLE } ∧
      { task_num := t.id, task_status := TaskStatus.AVAILABLE } ∈ db2.task_infos := by
  obtain ⟨h1, h2⟩ := delete_task_dependent_view db tid db2 t hnd hok ht hne
  have hcd : clearDependent db tid t =
      ({ t with dependent_on := none, status := TaskStatus.AVAILABLE },
       some { task_num := t.id, task_status := TaskStatus.AVAILABLE }) := by
    unfold clearDependent
    rw [if_pos (by simp [hdep]), if_pos hact]
  rw [hcd] at h1 h2
  refine ⟨h1, ?_⟩
  have hm : { task_num := t.id, task_status := TaskStatus.AVAILABLE } ∈
      db2.task_infos.filter (fun i => i.task_num == t.id) := by
    rw [h2]
    simp
  exact List.mem_of_mem_filter hm

/-- C10 witness: the concrete dependent is COMPLETE before the delete and is
overwritten to AVAILABLE by it, with the record present. -/
theorem C10_delete_overwrites_status_witness :
    tCompleteDep.status = TaskStatus.COMPLETE ∧
      (findTask dbDeleteAfter tCompleteDep.id =
          some { tCompleteDep with dependent_on := none, status := TaskStatus.AVAILABLE } ∧
        { task_num := tCompleteDep.id, task_status := TaskStatus.AVAILABLE } ∈
          dbDeleteAfter.task_infos) :=
  ⟨rfl, C10_delete_overwrites_status dbDelete 1 dbDeleteAfter tCompleteDep (by decide)
    rfl (by decide) rfl (by decide) rfl⟩

theorem findTask_of_nodup_mem (db : DB) (hnd : (db.tasks.map Task.id).Nodup)
    (t : Task) (ht : t ∈ db.tasks) : findTask db t.id = some t := by
  have h := find_map_of_nodup Task.id id (fun _ => rfl) db.tasks hnd t ht
  rwa [List.map_id] at h

theorem launchUpdateTask_fst_id (db : DB) (t : Task) :
    ((launchUpdateTask db t).1).id = t.id := by
  unfold launchUpdateTask
  split
  · split <;> rfl
  · split <;> rfl

theorem launchUpdateTask_snd_num (db : DB) (t : Task) (i : TaskInfo)
    (h : (launchUpdateTask db t).2 = some i) : i.task_num = t.id := by
  unfold launchUpdateTask at h
  split at h
  · split at h <;> (cases h; rfl)
  · split at h
    · cases h
    · cases h
      rfl

theorem updateTaskIn_map_id (l : List Task) (t : Task) :
    (updateTaskIn l t).map Task.id = l.map Task.id := by
  unfold updateTaskIn
  rw [List.map_map]
  refine List.map_congr_left (fun u hu => ?_)
  show (if u.id == t.id then t else u).id = u.id
  by_cases h : (u.id == t.id) = true
  · rw [if_pos h]
    exact (beq_iff_eq.mp h).symm
  · rw [if_neg h]

theorem updateTaskIn_self (l : List Task) (hnd : (l.map Task.id).Nodup)
    (t : Task) (ht : t ∈ l) : updateTaskIn l t = l := by
  unfold updateTaskIn
  conv_rhs => rw [← List.map_id l]
  refine List.map_congr_left (fun u hu => ?_)
  by_cases h : (u.id == t.id) = true
  · rw [if_pos h]
    exact List.inj_on_of_nodup_map hnd ht hu (beq_iff_eq.mp h).symm
  · rw [if_neg h]
    rfl

theorem mem_updateTaskIn (l : List Task) (v t : Task) (ht : t ∈ l)
    (hne : t.id ≠ v.id) : t ∈ updateTaskIn l v := by
  unfold updateTaskIn
  have hfix : (fun u => if u.id == v.id then v else u) t = t := by
    show (if t.id == v.id then v else t) = t
    rw [if_neg (by simp [hne])]
  exact hfix ▸ List.mem_map_of_mem (fun u => if u.id == v.id then v else u) ht

theorem launchLoop_frame (t : Task) :
    ∀ (l : List Nat) (db : DB),
      (db.tasks.map Task.id).Nodup → t ∈ db.tasks →
      (t.status = TaskStatus.TESTING ∨ t.status = TaskStatus.FEEDBACK) →
      truthy t.dependent_on = false →
      findTask (launchLoop db l) t.id = some t ∧
        (launchLoop db l).task_infos.filter (fun i => i.task_num == t.id) =
          db.task_infos.filter (fun i => i.task_num == t.id) := by
  intro l
  induction l with
  | nil =>
    intro db hnd ht hst hdep
    exact ⟨findTask_of_nodup_mem db hnd t ht, rfl⟩
  | cons j rest ih =>
    intro db hnd ht hst hdep
    cases hfj : findTask db j with
    | none =>
      have hstep : launchLoop db (j :: rest) = launchLoop db rest := by
        show (match findTask db j with
          | none => launchLoop db rest
          | some u => launchLoop (launchStepDB db u) rest) = _
        rw [hfj]
      rw [hstep]
      exact ih db hnd ht hst hdep
    | some u =>
      have hstep : launchLoop db (j :: rest) = launchLoop (launchStepDB db u) rest := by
        show (match findTask db j with
          | none => launchLoop db rest
          | some u => launchLoop (launchStepDB db u) rest) = _
        rw [hfj]
      rw [hstep]
      by_cases hut : u = t
      · subst hut
        have hcond : (u.status == TaskStatus.TESTING ||
            u.status == TaskStatus.FEEDBACK) = true := by
          rcases hst with h | h <;> simp [h]
        have hp : launchUpdateTask db u = (u, none) := by
          unfold launchUpdateTask
          rw [if_neg (by simp [hdep]), if_pos hcond]
        have hdbeq : launchStepDB db u = db := by
          unfold launchStepDB
          rw [hp]
          show { db with
            tasks := updateTaskIn db.tasks u,
            task_infos := db.task_infos ++ [] } = db
          rw [updateTaskIn_self db.tasks hnd u ht, List.append_nil]
        rw [hdbeq]
        exact ih db hnd ht hst hdep
      · have hum : u ∈ db.tasks := mem_of_findTask hfj
        have hneid : t.id ≠ (launchUpdateTask db u).1.id := by
          rw [launchUpdateTask_fst_id]
          intro he
          exact hut (List.inj_on_of_nodup_map hnd hum ht he.symm)
        have hnd2 : (((launchStepDB db u).tasks).map Task.id).Nodup := by
          show ((updateTaskIn db.tasks (launchUpdateTask db u).1).map Task.id).Nodup
          rw [updateTaskIn_map_id]
          exact hnd
        have ht2 : t ∈ (launchStepDB db u).tasks :=
          mem_updateTaskIn db.tasks (launchUpdateTask db u).1 t ht hneid
        obtain ⟨f2, i2⟩ := ih (launchStepDB db u) hnd2 ht2 hst hdep
        refine ⟨f2, ?_⟩
        rw [i2]
        show (db.task_infos ++ ((launchUpdateTask db u).2).toList).filter
            (fun i => i.task_num == t.id) = _
        have hsnd : (((launchUpdateTask db u).2).toList).filter
            (fun i => i.task_num == t.id) = [] := by
          cases hsu : (launchUpdateTask db u).2 with
          | none => rfl
          | some i =>
            have hin : i.task_num = u.id := launchUpdateTask_snd_num db u i hsu
            have hf : (i.task_num == t.id) = false := by
              rw [hin]
              exact beq_eq_false_iff_ne.mpr
                (fun he => hut (List.inj_on_of_nodup_map hnd hum ht he))
            show [i].filter (fun i0 => i0.task_num == t.id) = []
            simp [List.filter_cons, hf]
        rw [List.filter_append, hsnd, List.append_nil]

/-- C2 (corrected): the launch re-evaluation leaves a TESTING/FEEDBACK task
untouched — same status, no new history record — only when that task has no
dependency; the counterexample shows a TESTING task with a dependency being
re-evaluated. -/
theorem C2_launch_keeps_dependency_free_review_states (db : DB) (sid : Nat)
    (db2 : DB) (t : Task)
    (hnd : (db.tasks.map Task.id).Nodup) (ht : t ∈ db.tasks)
    (hsp : t.sprint_id = some sid)
    (hst : t.status = TaskStatus.TESTING ∨ t.status = TaskStatus.FEEDBACK)
    (hdep : truthy t.dependent_on = false)
    (hok : launch_sprint db sid = .ok db2) :
    findTask db2 t.id = some t ∧
      db2.task_infos.filter (fun i => i.task_num == t.id) =
        db.task_infos.filter (fun i => i.task_num == t.id) := by
  unfold launch_sprint at hok
  cases hfs : findSprint db sid with
  | none => rw [hfs] at hok; cases hok
  | some s =>
    rw [hfs] at hok
    split at hok
    · cases hok
    · simp only [] at hok
      split at hok
      · cases hok
      · split at hok
        · cases hok
        · split at hok
          · cases hok
          · split at hok
            · cases hok
            · injection hok with h
              subst h
              exact launchLoop_frame t
                ((db.tasks.filter (fun u => u.sprint_id == some sid)).map Task.id)
                db hnd ht hst hdep

/-- C2 counterexample: in the concrete database, task 6 is TESTING and has an
FS dependency; launching its sprint succeeds, re-evaluates it to WAIT — not
TESTING — and writes a new history record for it, refuting the claim's
`regardless of whether the task has a dependency set`. -/
theorem C2_counterexample :
    (findTask dbTestingDep 6).map Task.status = some TaskStatus.TESTING ∧
      (findTask dbTestingDep 6).map Task.dependent_on = some (some 1) ∧
      statusAfterLaunch dbTestingDep 1 6 = some TaskStatus.WAIT ∧
      { task_num := 6, task_status := TaskStatus.WAIT } ∈ infosAfterLaunch dbTestingDep 1 := by
  decide

/-- C2 witness: the frame theorem applied to the concrete database whose
TESTING task 6 has no dependency: the launch leaves it TESTING with no new
record. -/
theorem C2_launch_keeps_dependency_free_review_states_witness :
    findTask dbTestingNoDepLaunched tTestingNoDep.id = some tTestingNoDep ∧
      dbTestingNoDepLaunched.task_infos.filter
          (fun i => i.task_num == tTestingNoDep.id) =
        dbTestingNoDep.task_infos.filter (fun i => i.task_num == tTestingNoDep.id) :=
  C2_launch_keeps_dependency_free_review_states dbTestingNoDep 1 dbTestingNoDepLaunched
    tTestingNoDep (by decide) (by decide) rfl (Or.inl rfl) rfl rfl

theorem chainStep_target (db : DB) (i nxt : Nat) (h : chainStep db i = some nxt) :
    nxt ∈ (db.tasks.filterMap Task.dependent_on).toFinset ∧ nxt ≠ 0 := by
  unfold chainStep at h
  cases hft : findTask db i with
  | none => rw [hft] at h; cases h
  | some u =>
    rw [hft] at h
    replace h : (match u.dependent_on with
      | none => none
      | some m => if m = 0 then none else some m) = some nxt := h
    cases hdo : u.dependent_on with
    | none => rw [hdo] at h; cases h
    | some m =>
      rw [hdo] at h
      replace h : (if m = 0 then none else some m) = some nxt := h
      by_cases h0 : m = 0
      · rw [if_pos h0] at h; cases h
      · rw [if_neg h0] at h
        injection h with he
        subst he
        exact ⟨List.mem_toFinset.mpr (List.mem_filterMap.mpr ⟨u, mem_of_findTask hft, hdo⟩), h0⟩

theorem ccdWalk_isSome (db : DB) (tid : Nat) (S : Finset Nat)
    (hT : (db.tasks.filterMap Task.dependent_on).toFinset ⊆ S) :
    ∀ (fuel : Nat) (current : Nat) (visited : Finset Nat),
      current ∈ S → visited ⊆ S → S.card + 1 ≤ fuel + visited.card →
      (ccdWalk db tid fuel current visited).isSome = true := by
  intro fuel
  induction fuel with
  | zero =>
    intro current visited hc hv hcard
    have := Finset.card_le_card hv
    omega
  | succ fuel ih =>
    intro current visited hc hv hcard
    have hred : ccdWalk db tid (fuel + 1) current visited =
        (if current = 0 then some false
         else if current = tid then some true
         else if current ∈ visited then some true
         else match chainStep db current with
           | none => some false
           | some nxt => ccdWalk db tid fuel nxt (insert current visited)) := rfl
    rw [hred]
    by_cases h0 : current = 0
    · rw [if_pos h0]; rfl
    rw [if_neg h0]
    by_cases h1 : current = tid
    · rw [if_pos h1]; rfl
    rw [if_neg h1]
    by_cases h2 : current ∈ visited
    · rw [if_pos h2]; rfl
    rw [if_neg h2]
    cases hcs : chainStep db current with
    | none => rfl
    | some nxt =>
      refine ih nxt (insert current visited) ?_ ?_ ?_
      · exact hT (chainStep_target db current nxt hcs).1
      · rw [Finset.insert_subset_iff]
        exact ⟨hc, hv⟩
      · rw [Finset.card_insert_of_not_mem h2]
        omega

theorem ccdWalk_default_isSome (db : DB) (tid did : Nat) :
    (ccdWalk db tid (ccdFuel db) did ∅).isSome = true := by
  refine ccdWalk_isSome db tid
    (insert did (db.tasks.filterMap Task.dependent_on).toFinset)
    (Finset.subset_insert _ _) (ccdFuel db) did ∅ (Finset.mem_insert_self _ _)
    (Finset.empty_subset _) ?_
  have h1 : (insert did (db.tasks.filterMap Task.dependent_on).toFinset).card ≤
      (db.tasks.filterMap Task.dependent_on).toFinset.card + 1 :=
    Finset.card_insert_le _ _
  have h2 : (db.tasks.filterMap Task.dependent_on).toFinset.card ≤
      (db.tasks.filterMap Task.dependent_on).length :=
    List.toFinset_card_le _
  have h3 : (db.tasks.filterMap Task.dependent_on).length ≤ db.tasks.length :=
    List.length_filterMap_le _ _
  unfold ccdFuel
  rw [Finset.card_empty]
  omega

theorem ccdWalk_false_spec (db : DB) (tid : Nat) :
    ∀ (fuel : Nat) (current : Nat) (visited : Finset Nat),
      current ≠ 0 →
      ccdWalk db tid fuel current visited = some false →
      (∀ k v, chainSeq db current k = some v → v ≠ tid ∧ v ∉ visited) ∧
      (∀ j k v, j < k → chainSeq db current j = some v →
        chainSeq db current k = some v → False) := by
  intro fuel
  induction fuel with
  | zero =>
    intro current visited hc0 h
    simp [ccdWalk] at h
  | succ fuel ih =>
    intro current visited hc0 h
    have hred : ccdWalk db tid (fuel + 1) current visited =
        (if current = 0 then some false
         else if current = tid then some true
         else if current ∈ visited then some true
         else match chainStep db current with
           | none => some false
           | some nxt => ccdWalk db tid fuel nxt (insert current visited)) := rfl
    rw [hred] at h
    rw [if_neg hc0] at h
    by_cases h1 : current = tid
    · rw [if_pos h1] at h; cases h
    rw [if_neg h1] at h
    by_cases h2 : current ∈ visited
    · rw [if_pos h2] at h; cases h
    rw [if_neg h2] at h
    cases hcs : chainStep db current with
    | none =>
      have hend : ∀ k, chainSeq db current (k + 1) = none := by
        intro k
        show (match chainStep db current with
          | none => none
          | some nxt => chainSeq db nxt k) = none
        rw [hcs]
      constructor
      · intro k v hk
        cases k with
        | zero =>
          have hvc : current = v := by injection hk
          subst hvc
          exact ⟨h1, h2⟩
        | succ k => rw [hend k] at hk; cases hk
      · intro j k v hjk hj hk
        cases k with
        | zero => omega
        | succ k => rw [hend k] at hk; cases hk
    | some nxt =>
      rw [hcs] at h
      have hnxt0 : nxt ≠ 0 := (chainStep_target db current nxt hcs).2
      obtain ⟨hA, hB⟩ := ih nxt (insert current visited) hnxt0 h
      have hshift : ∀ k, chainSeq db current (k + 1) = chainSeq db nxt k := by
        intro k
        show (match chainStep db current with
          | none => none
          | some m => chainSeq db m k) = _
        rw [hcs]
      constructor
      · intro k v hk
        cases k with
        | zero =>
          have hvc : current = v := by injection hk
          subst hvc
          exact ⟨h1, h2⟩
        | succ k =>
          rw [hshift k] at hk
          obtain ⟨hv1, hv2⟩ := hA k v hk
          exact ⟨hv1, fun hvv => hv2 (Finset.mem_insert_of_mem hvv)⟩
      · intro j k v hjk hj hk
        cases j with
        | zero =>
          have hvc : current = v := by injection hj
          subst hvc
          cases k with
          | zero => omega
          | succ k =>
            rw [hshift k] at hk
            exact (hA k current hk).2 (Finset.mem_insert_self current visited)
        | succ j =>
          cases k with
          | zero => omega
          | succ k =>
            rw [hshift j] at hj
            rw [hshift k] at hk
            exact hB j k v (by omega) hj hk

/-- C6: the cycle walk terminates on every database, including one whose
dependent_on chains already contain a pre-existing cycle: with the fuel
check_circular_dependency uses, the unrolled while-loop always yields a
result (never exhausts its fuel), because each iteration inserts a fresh
node drawn from the finite set of dependency targets into the visited set. -/
theorem C6_cycle_walk_terminates (db : DB) (tid did : Nat) :
    (ccdWalk db tid (ccdFuel db) did ∅).isSome = true :=
  ccdWalk_default_isSome db tid did

/-- C5: check_circular_dependency returns true whenever the dependent_on chain
from the proposed prerequisite reaches the task itself (self-reference is the
zero-step case) or visits the same node twice. -/
theorem C5_cycle_detection (db : DB) (tid did : Nat) (hdid : did ≠ 0)
    (h : (∃ k, chainSeq db did k = some tid) ∨
         ∃ j k v, j < k ∧ chainSeq db did j = some v ∧ chainSeq db did k = some v) :
    check_circular_dependency db tid did = true := by
  have hsome := ccdWalk_default_isSome db tid did
  cases hb : ccdWalk db tid (ccdFuel db) did ∅ with
  | none => rw [hb] at hsome; cases hsome
  | some b =>
    cases b with
    | true =>
      unfold check_circular_dependency
      rw [hb]
      rfl
    | false =>
      exfalso
      obtain ⟨hA, hB⟩ := ccdWalk_false_spec db tid (ccdFuel db) did ∅ hdid hb
      rcases h with ⟨k, hk⟩ | ⟨j, k, v, hjk, hj, hk⟩
      · exact (hA k tid hk).1 rfl
      · exact hB j k v hjk hj hk

/-- C5 witness: in the concrete chain 1 → 2, task 2 is reachable from the
proposed prerequisite 1, and the walk reports a cycle for the edge 2 → 1. -/
theorem C5_cycle_detection_witness :
    check_circular_dependency dbCycle 2 1 = true :=
  C5_cycle_detection dbCycle 2 1 (by decide) (Or.inl ⟨1, rfl⟩)

end PM
